import Mathlib

/-!
Verification of the edgee slack-message-component request/response
adaptation layer.

The development shallowly embeds the Rust sources:
  - `src/helpers/mod.rs`  : `run_json`, `handle_json_error`
  - `src/helpers/body.rs` : the body codecs (`FromBody`/`IntoBody` for
    `Option<T>`, `()`, `Bytes`, and `Json<T>::extend_response_parts`)
  - `src/lib.rs`          : `Component::handle_json_request`, `Settings::new`
  - `src/helpers/extensions.rs` : `ResponseOutparam::send` (modelled as a
    single assignment appended to a sink log)

External collaborators (serde_json parsing of the settings header, the
outbound waki HTTP client, the wasi host bindings) are not code of this
repository; they enter the embedding as explicit function parameters or as
outcome values, so every adapter branch of the source is preserved.
Machine integers (HTTP status codes, u16 in the source) stay well inside
their range here, so they are modelled as `Nat`.
-/

/-- A JSON value, modelling `serde_json::Value` as used by this component
(no floating-point numbers are ever produced or inspected by the code
under verification, so numbers are modelled as integers). -/
inductive JsonVal where
  | null
  | bool (b : Bool)
  | num (n : Int)
  | str (s : String)
  | arr (elems : List JsonVal)
  | obj (fields : List (String × JsonVal))

/-- JSON string escaping as performed by serde_json for the characters that
can occur in this component's outputs. -/
def escapeChar (c : Char) : String :=
  if c = '"' then "\\\""
  else if c = '\\' then "\\\\"
  else if c = '\n' then "\\n"
  else if c = '\r' then "\\r"
  else if c = '\t' then "\\t"
  else String.singleton c

/-- A JSON string literal: quotes around the escaped characters. -/
def escapeString (s : String) : String :=
  "\"" ++ String.join (s.data.map escapeChar) ++ "\""

mutual

/-- Compact serde_json serialization (`serde_json::to_writer`): no spaces,
object fields in the order they are listed. -/
def JsonVal.serialize : JsonVal → String
  | .null => "null"
  | .bool true => "true"
  | .bool false => "false"
  | .num n => toString n
  | .str s => escapeString s
  | .arr xs => "[" ++ JsonVal.serializeElems xs ++ "]"
  | .obj fs => "\x7b" ++ JsonVal.serializeFields fs ++ "\x7d"

/-- Comma-separated serialization of array elements. -/
def JsonVal.serializeElems : List JsonVal → String
  | [] => ""
  | [x] => x.serialize
  | x :: y :: xs => x.serialize ++ "," ++ JsonVal.serializeElems (y :: xs)

/-- Comma-separated serialization of object fields. -/
def JsonVal.serializeFields : List (String × JsonVal) → String
  | [] => ""
  | [(k, v)] => escapeString k ++ ":" ++ v.serialize
  | (k, v) :: f :: fs =>
      escapeString k ++ ":" ++ v.serialize ++ "," ++ JsonVal.serializeFields (f :: fs)

end

/-- First binding of a key in a JSON object's field list
(`serde_json::Map` keys are unique after parsing, so first match is exact). -/
def jsonObjLookup : List (String × JsonVal) → String → Option JsonVal
  | [], _ => none
  | (k, v) :: rest, key => if k == key then some v else jsonObjLookup rest key

/-- `serde_json::Value::get(key)`: a field of an object, `None` on any
non-object value. -/
def JsonVal.get (v : JsonVal) (key : String) : Option JsonVal :=
  match v with
  | .obj fields => jsonObjLookup fields key
  | _ => none

/-- `serde_json::Value::as_str()`: `Some` exactly on JSON strings. -/
def JsonVal.asStr : JsonVal → Option String
  | .str s => some s
  | _ => none

/-- ASCII lowercasing of one character (header names are ASCII). -/
def asciiLowerChar (c : Char) : Char :=
  if c.toNat ≥ 65 ∧ c.toNat ≤ 90 then Char.ofNat (c.toNat + 32) else c

/-- ASCII lowercasing of a header name. -/
def asciiLower (s : String) : String :=
  String.mk (s.data.map asciiLowerChar)

/-- Case-insensitive header-name comparison (`http::HeaderName` equality). -/
def headerNameEq (a b : String) : Bool :=
  asciiLower a == asciiLower b

/-- `http::HeaderMap::get`: the first value stored under a name. -/
def headerGet : List (String × String) → String → Option String
  | [], _ => none
  | (k, v) :: rest, name => if headerNameEq k name then some v else headerGet rest name

/-- All values stored under a name, in order (`http::HeaderMap::get_all`). -/
def headerGetAll (headers : List (String × String)) (name : String) : List String :=
  (headers.filter fun kv => headerNameEq kv.1 name).map Prod.snd

/-- `http::HeaderMap::insert`: replace every value previously stored under
the name with the single new value. -/
def headerInsert (headers : List (String × String)) (name value : String) :
    List (String × String) :=
  (headers.filter fun kv => !headerNameEq kv.1 name) ++ [(name, value)]

/-- `HeaderMap::entry(name).or_insert(value)`: insert only when the name is
absent, leave the map untouched otherwise. -/
def headerEntryOrInsert (headers : List (String × String)) (name value : String) :
    List (String × String) :=
  match headerGet headers name with
  | some _ => headers
  | none => headers ++ [(name, value)]

namespace JsonBody

/-- `Json::<T>::extend_response_parts` from `src/helpers/body.rs`: apply the
codec's content-type default to the response headers via
`entry(CONTENT_TYPE).or_insert("application/json")`. -/
def extend_response_parts (headers : List (String × String)) :
    List (String × String) :=
  headerEntryOrInsert headers "content-type" "application/json"

end JsonBody

/-- An `http::Response`: status, header multimap, body. -/
structure HttpResponse (β : Type) where
  status : Nat
  headers : List (String × String)
  body : β
deriving Repr

/-- An `http::Request` as the handler sees it: the header multimap and the
(already decoded) body. Method/URI play no role in any verified claim. -/
structure Request (β : Type) where
  headers : List (String × String)
  body : β

/-- The host's `ResponseOutparam`, modelled as a log of the responses
assigned to it; `ResponseOutparam::set` appends exactly one entry. -/
structure Sink where
  sent : List (HttpResponse String)

/-- `ResponseOutparam::send` from `src/helpers/extensions.rs`: one
assignment of the outparam (followed by the body write, which cannot
un-assign it). -/
def Sink.send (s : Sink) (r : HttpResponse String) : Sink :=
  ⟨s.sent ++ [r]⟩

/-- Outcome of running a Rust handler: a successful response, a recoverable
error (`Err` of the returned `Result`), or `trap` modelling a Rust panic
(`unwrap`/`expect`), which aborts the invocation instead of returning. -/
inductive HandlerOutcome (α : Type) where
  | ok (value : α)
  | err (msg : String)
  | trap (msg : String)

/-- Outcome of the adapter: it returned normally with the final sink state,
or a panic propagated through it (`trapped`) leaving the sink as it was. -/
inductive RunResult where
  | done (sink : Sink)
  | trapped (sink : Sink) (msg : String)

/-- Number of responses assigned to the sink at the end of a run. -/
def RunResult.sentCount : RunResult → Nat
  | .done s => s.sent.length
  | .trapped s _ => s.sent.length

/-- `handle_json_error` from `src/helpers/mod.rs`: build the uniform JSON
error envelope (status 500, content-type application/json, body
`\x7b"error":"Internal server error","message":<msg>\x7d`) and send it. -/
def handle_json_error (response_out : Sink) (msg : String) : Sink :=
  response_out.send
    { status := 500
      headers := [("content-type", "application/json")]
      body := (JsonVal.obj
        [("error", .str "Internal server error"),
         ("message", .str msg)]).serialize }

/-- `run_json` from `src/helpers/mod.rs`, from the point where the wasi
request has been converted (the conversion `req.try_into().unwrap()` and
the body read precede every branch below; `decoded` is the result of
`body.read_json()`, `ser` is the `body::json` serialization of the
handler's output value). Each `let ... else` branch of the source appears
as one match arm. -/
def run_json (reqHeaders : List (String × String))
    (decoded : Except String JsonVal)
    (handler : Request JsonVal → HandlerOutcome (HttpResponse JsonVal))
    (ser : JsonVal → Except String String)
    (response_out : Sink) : RunResult :=
  match decoded with
  | .error _ => .done (handle_json_error response_out "Invalid JSON request")
  | .ok value =>
    match handler { headers := reqHeaders, body := value } with
    | .trap msg => .trapped response_out msg
    | .err _ => .done (handle_json_error response_out "Error during request handling")
    | .ok res =>
      match ser res.body with
      | .error _ => .done (handle_json_error response_out "Invalid JSON response")
      | .ok bodyStr =>
        .done (response_out.send
          { status := res.status
            headers := headerInsert res.headers "content-type" "application/json"
            body := bodyStr })

/-- Lift a non-panicking Rust `Result` into a handler outcome. -/
def liftResult (r : Except String α) : HandlerOutcome α :=
  match r with
  | .ok v => .ok v
  | .error e => .err e

/-- The component settings (`struct Settings` in `src/lib.rs`). -/
structure Settings where
  webhook_url : String

/-- The reserved settings header name. -/
def settingsHeaderName : String := "x-edgee-component-settings"

/-- First binding of a key in a parsed string-to-string map
(`HashMap<String, String>::get`; keys are unique after parsing). -/
def mapGet : List (String × String) → String → Option String
  | [], _ => none
  | (k, v) :: rest, key => if k == key then some v else mapGet rest key

/-- `Settings::new` from `src/lib.rs`. `parseSettings` stands for the
external `serde_json::from_str::<HashMap<String, String>>`; everything
else (header lookup, every error message, the `webhook_url` lookup) is the
source's own logic. The function is total: every failure is an `Except`
error value, never a panic. -/
def Settings.new (parseSettings : String → Except String (List (String × String)))
    (headers : List (String × String)) : Except String Settings :=
  match headerGet headers settingsHeaderName with
  | none => .error "Missing 'x-edgee-component-settings' header"
  | some value =>
    match parseSettings value with
    | .error e => .error e
    | .ok data =>
      match mapGet data "webhook_url" with
      | none => .error "Missing webhook_url setting"
      | some url => .ok { webhook_url := url }

/-- `Settings::from_req`: extraction from the request's headers. -/
def Settings.from_req (parseSettings : String → Except String (List (String × String)))
    (req : Request β) : Except String Settings :=
  Settings.new parseSettings req.headers

/-- `Component::handle_json_request` from `src/lib.rs`. `sendPost` stands
for the external outbound POST (`SlackMessagePayload::send` via waki),
taking the webhook url and the serialized `\x7b"text":<message>\x7d`
payload and returning the provider status or a transport error. The
`.expect("Failed to send Slack message")` of the source is modelled by
`trap`: a transport error panics instead of returning `Err`. A present
non-string `message` value goes through `as_str().unwrap_or_default()`,
i.e. the empty string. -/
def handle_json_request
    (parseSettings : String → Except String (List (String × String)))
    (sendPost : String → String → Except String Nat)
    (req : Request JsonVal) : HandlerOutcome (HttpResponse JsonVal) :=
  match Settings.from_req parseSettings req with
  | .error e => .err e
  | .ok settings =>
    match req.body.get "message" with
    | none => .err "Missing 'message' field in request body"
    | some value =>
      let message := (value.asStr).getD ""
      let payload := (JsonVal.obj [("text", .str message)]).serialize
      match sendPost settings.webhook_url payload with
      | .error _ => .trap "Failed to send Slack message"
      | .ok status =>
        .ok { status := status
              headers := []
              body := .obj [("ok", .bool (status == 200))] }

/-- A body codec: the `FromBody`/`IntoBody` pair of `src/helpers/body.rs`
for one type, over raw byte buffers. -/
structure BodyCodec (α : Type) where
  from_data : List Nat → Except String α
  into_body : α → Except String (List Nat)

/-- The `()` codec: decoding ignores the input, encoding is empty. -/
def unitCodec : BodyCodec Unit where
  from_data := fun _ => .ok ()
  into_body := fun _ => .ok []

/-- The `Bytes` codec: passthrough in both directions. -/
def bytesCodec : BodyCodec (List Nat) where
  from_data := fun data => .ok data
  into_body := fun data => .ok data

/-- The `Option<T>` codec from `src/helpers/body.rs`: empty input decodes
to `none`, non-empty input delegates to `T` (propagating its error);
`some` encodes as `T` does, `none` encodes to the empty buffer. -/
def optionCodec (c : BodyCodec α) : BodyCodec (Option α) where
  from_data := fun data =>
    if data.isEmpty then .ok none
    else
      match c.from_data data with
      | .error e => .error e
      | .ok v => .ok (some v)
  into_body := fun v =>
    match v with
    | some value => c.into_body value
    | none => .ok []

/-- The configuration-error taxonomy of spec section 7 for the strict
settings-extractor variant. -/
inductive ConfigError where
  | missingHeader
  | duplicate (count : Nat)
  | malformed (cause : String)
  | missingField

/-- Modelled from the spec: the strict settings-extractor variant of
section 4.2 is not present under `src/` (the `Settings::new` in
`src/lib.rs` takes the first header value and never checks for
duplicates); step 2 of the spec's algorithm requires exactly one value for
the settings header and fails with a count-bearing `ConfigError::Duplicate`
otherwise. -/
def Settings.newStrict
    (parseSettings : String → Except String (List (String × String)))
    (headers : List (String × String)) : Except ConfigError Settings :=
  match headerGetAll headers settingsHeaderName with
  | [] => .error .missingHeader
  | [value] =>
    match parseSettings value with
    | .error e => .error (.malformed e)
    | .ok data =>
      match mapGet data "webhook_url" with
      | none => .error .missingField
      | some url => .ok { webhook_url := url }
  | values => .error (.duplicate values.length)

/-- A sample stand-in for `serde_json::from_str::<HashMap<String, String>>`
on the concrete header values used by the witnesses: `"cfg"` parses to a
map with a `webhook_url` key, `"cfg2"` to a map without one, anything else
fails to parse. -/
def parseSettingsDemo : String → Except String (List (String × String)) :=
  fun s =>
    if s = "cfg" then .ok [("webhook_url", "http://example.com/webhook")]
    else if s = "cfg2" then .ok [("not_webhook_url", "value")]
    else .error "invalid settings"

/-! ## Theorems -/

/-- C1: on every path through the `run_json` adapter enumerated by the
claim — body decode failure, handler failure (a handler that returns
`Err`), encode failure, or success — the response sink is assigned exactly
once before the adapter returns: no path returns without sending and no
path sends twice. -/
theorem run_json_sends_exactly_once
    (reqHeaders : List (String × String)) (decoded : Except String JsonVal)
    (handler : Request JsonVal → Except String (HttpResponse JsonVal))
    (ser : JsonVal → Except String String) :
    (run_json reqHeaders decoded (fun r => liftResult (handler r)) ser ⟨[]⟩).sentCount = 1 := by
  cases decoded with
  | error e => rfl
  | ok value =>
    cases h : handler { headers := reqHeaders, body := value } with
    | error e =>
      simp [run_json, liftResult, h, RunResult.sentCount, Sink.send, handle_json_error]
    | ok res =>
      cases hs : ser res.body with
      | error e =>
        simp [run_json, liftResult, h, hs, RunResult.sentCount, Sink.send, handle_json_error]
      | ok bodyStr =>
        simp [run_json, liftResult, h, hs, RunResult.sentCount, Sink.send]

/-- C2 counterexample: the claim, as stated over every handler response,
fails at a handler that sets `Content-Type: text/plain` explicitly —
`run_json` (src/helpers/mod.rs, the `parts.headers.insert` call) replaces
it with `application/json` in the response it sends. -/
theorem run_json_overwrites_content_type :
    run_json [] (.ok .null)
        (fun _ => .ok { status := 200, headers := [("content-type", "text/plain")], body := .null })
        (fun _ => .ok "null") ⟨[]⟩
      = .done ⟨[{ status := 200
                  headers := [("content-type", "application/json")]
                  body := "null" }]⟩
    ∧ ("application/json" : String) ≠ "text/plain" := by
  exact ⟨rfl, by decide⟩

/-- C2 (amended): the codec-level default merge
(`Json::extend_response_parts`, via `entry(..).or_insert(..)`) is
additive-only — a content-type the handler already set is preserved
unchanged (the whole header map is untouched), and the default is inserted
only when the header is absent. The adapter `run_json` itself does not use
this merge for its final response: it overwrites content-type
unconditionally. -/
theorem json_extend_response_parts_additive
    (headers : List (String × String)) :
    (∀ v, headerGet headers "content-type" = some v →
      JsonBody.extend_response_parts headers = headers) ∧
    (headerGet headers "content-type" = none →
      JsonBody.extend_response_parts headers
        = headers ++ [("content-type", "application/json")]) := by
  constructor
  · intro v hv
    simp [JsonBody.extend_response_parts, headerEntryOrInsert, hv]
  · intro hv
    simp [JsonBody.extend_response_parts, headerEntryOrInsert, hv]

/-- C2 witness: a handler-set `Content-Type: text/plain` survives the
codec merge untouched. -/
theorem json_extend_response_parts_additive_witness :
    JsonBody.extend_response_parts [("content-type", "text/plain")]
      = [("content-type", "text/plain")] :=
  (json_extend_response_parts_additive [("content-type", "text/plain")]).1 "text/plain" rfl

/-- C4 counterexample: for the malformed-body cause
`"expected value at line 1 column 1"` the adapter's error response carries
the fixed message `"Invalid JSON request"`, not that cause — the message
field does not carry the detail cause of the decode failure. -/
theorem decode_failure_fixed_message :
    run_json [] (.error "expected value at line 1 column 1")
        (fun _ => .err "unused") (fun _ => .error "unused") ⟨[]⟩
      = .done ⟨[{ status := 500
                  headers := [("content-type", "application/json")]
                  body := "\x7b\"error\":\"Internal server error\",\"message\":\"Invalid JSON request\"\x7d" }]⟩
    ∧ "\x7b\"error\":\"Internal server error\",\"message\":\"Invalid JSON request\"\x7d"
        ≠ "\x7b\"error\":\"Internal server error\",\"message\":\"expected value at line 1 column 1\"\x7d" := by
  exact ⟨rfl, by decide⟩

/-- C4 (amended): for every decode failure, whatever its cause, and for
every handler and serializer, the adapter sends exactly one response, with
status 500, content-type application/json, and body
`\x7b"error":"Internal server error","message":"Invalid JSON request"\x7d` —
the message field is the fixed string `"Invalid JSON request"`, not the
underlying parse-error detail. -/
theorem decode_failure_response
    (reqHeaders : List (String × String)) (cause : String)
    (handler : Request JsonVal → HandlerOutcome (HttpResponse JsonVal))
    (ser : JsonVal → Except String String) :
    run_json reqHeaders (.error cause) handler ser ⟨[]⟩
      = .done ⟨[{ status := 500
                  headers := [("content-type", "application/json")]
                  body := "\x7b\"error\":\"Internal server error\",\"message\":\"Invalid JSON request\"\x7d" }]⟩ := by
  rfl

/-- C3 counterexample: with valid settings, a valid message, and an
outbound POST failing with cause `"connection refused"`, the handler does
not return a failure carrying the cause — it traps (the source's
`.expect("Failed to send Slack message")` panics), and the adapter
propagates the panic with zero responses sent: the failure is fatal to the
invocation and the transport cause reaches no response message. -/
theorem transport_failure_traps :
    handle_json_request parseSettingsDemo (fun _ _ => .error "connection refused")
        { headers := [("x-edgee-component-settings", "cfg")]
          body := .obj [("message", .str "hi")] }
      = .trap "Failed to send Slack message"
    ∧ run_json [("x-edgee-component-settings", "cfg")]
        (.ok (.obj [("message", .str "hi")]))
        (handle_json_request parseSettingsDemo (fun _ _ => .error "connection refused"))
        (fun _ => .ok "") ⟨[]⟩
      = .trapped ⟨[]⟩ "Failed to send Slack message" :=
  ⟨rfl, rfl⟩

/-- C3 (amended): whenever settings extraction succeeds, the `message`
field is present, and the outbound POST of the payload fails (with any
cause), `handle_json_request` traps with the fixed panic message
`"Failed to send Slack message"` instead of returning an error, and the
adapter run ends trapped with no response assigned. -/
theorem transport_failure_amended
    (parse : String → Except String (List (String × String)))
    (sendPost : String → String → Except String Nat)
    (hdrs : List (String × String)) (body : JsonVal)
    (s : Settings) (v : JsonVal) (cause : String)
    (ser : JsonVal → Except String String)
    (hs : Settings.new parse hdrs = .ok s)
    (hm : body.get "message" = some v)
    (hsend : sendPost s.webhook_url
        ((JsonVal.obj [("text", .str (v.asStr.getD ""))]).serialize) = .error cause) :
    handle_json_request parse sendPost { headers := hdrs, body := body }
      = .trap "Failed to send Slack message"
    ∧ run_json hdrs (.ok body) (handle_json_request parse sendPost) ser ⟨[]⟩
      = .trapped ⟨[]⟩ "Failed to send Slack message" := by
  have h1 : handle_json_request parse sendPost { headers := hdrs, body := body }
      = .trap "Failed to send Slack message" := by
    simp [handle_json_request, Settings.from_req, hs, hm, hsend]
  exact ⟨h1, by simp [run_json, h1]⟩

/-- C3 witness: the amended theorem at the concrete failing POST. -/
theorem transport_failure_amended_witness :
    handle_json_request parseSettingsDemo (fun _ _ => .error "connection refused")
        { headers := [("x-edgee-component-settings", "cfg")]
          body := .obj [("message", .str "hi")] }
      = .trap "Failed to send Slack message" :=
  (transport_failure_amended parseSettingsDemo (fun _ _ => .error "connection refused")
    [("x-edgee-component-settings", "cfg")] (.obj [("message", .str "hi")])
    ⟨"http://example.com/webhook"⟩ (.str "hi") "connection refused"
    (fun _ => .ok "") rfl rfl rfl).1

/-- C5 counterexample: a `message` field that is present but not a string
(here the number 42) is not rejected — `as_str().unwrap_or_default()`
coerces it to the empty string and the relay proceeds to a success
response, contradicting the claimed domain error. -/
theorem nonstring_message_not_rejected :
    handle_json_request parseSettingsDemo (fun _ _ => .ok 200)
        { headers := [("x-edgee-component-settings", "cfg")]
          body := .obj [("message", .num 42)] }
      = .ok { status := 200
              headers := []
              body := .obj [("ok", .bool true)] }
    ∧ (HandlerOutcome.ok { status := 200
                           headers := []
                           body := .obj [("ok", .bool true)] }
        : HandlerOutcome (HttpResponse JsonVal))
      ≠ .err "Missing 'message' field in request body" :=
  ⟨rfl, fun h => nomatch h⟩

/-- C5 (amended): when the decoded body has no `message` field at all (and
settings extraction succeeds), the handler fails with exactly
`"Missing 'message' field in request body"` and the adapter sends exactly
one error response — never zero, never two. A present non-string value is
instead coerced to the empty string and does not fail. -/
theorem missing_message_field
    (parse : String → Except String (List (String × String)))
    (sendPost : String → String → Except String Nat)
    (hdrs : List (String × String)) (body : JsonVal) (s : Settings)
    (ser : JsonVal → Except String String)
    (hs : Settings.new parse hdrs = .ok s)
    (hm : body.get "message" = none) :
    handle_json_request parse sendPost { headers := hdrs, body := body }
      = .err "Missing 'message' field in request body"
    ∧ run_json hdrs (.ok body) (handle_json_request parse sendPost) ser ⟨[]⟩
      = .done (handle_json_error ⟨[]⟩ "Error during request handling")
    ∧ (run_json hdrs (.ok body) (handle_json_request parse sendPost) ser ⟨[]⟩).sentCount
      = 1 := by
  have h1 : handle_json_request parse sendPost { headers := hdrs, body := body }
      = .err "Missing 'message' field in request body" := by
    simp [handle_json_request, Settings.from_req, hs, hm]
  refine ⟨h1, by simp [run_json, h1], ?_⟩
  simp [run_json, h1, RunResult.sentCount, handle_json_error, Sink.send]

/-- C5 witness: the amended theorem on the body `\x7b\x7d`. -/
theorem missing_message_field_witness :
    handle_json_request parseSettingsDemo (fun _ _ => .ok 200)
        { headers := [("x-edgee-component-settings", "cfg")], body := .obj [] }
      = .err "Missing 'message' field in request body" :=
  (missing_message_field parseSettingsDemo (fun _ _ => .ok 200)
    [("x-edgee-component-settings", "cfg")] (.obj [])
    ⟨"http://example.com/webhook"⟩ (fun _ => .ok "") rfl rfl).1

/-- C6 counterexample: the round-trip third conjunct of the claim fails at
`T = ()` and `x = ()`: encoding `some ()` yields the empty buffer, which
decodes to `none`, not `some ()`. -/
theorem option_roundtrip_fails_on_empty_encoding :
    (optionCodec unitCodec).into_body (some ()) = .ok []
    ∧ (optionCodec unitCodec).from_data [] = .ok none
    ∧ (Except.ok none : Except String (Option Unit)) ≠ .ok (some ()) :=
  ⟨rfl, rfl, fun h => nomatch h⟩

/-- Helper: decoding `Option<T>` on non-empty input delegates exactly to
`T`'s decode, wrapping success in `some` and propagating errors. -/
theorem optionCodec_delegates {α : Type} (c : BodyCodec α)
    (data : List Nat) (hd : data ≠ []) :
    (optionCodec c).from_data data = (c.from_data data).map some := by
  cases data with
  | nil => exact absurd rfl hd
  | cons a l =>
    cases hc : c.from_data (a :: l) with
    | error e => simp [optionCodec, hc, Except.map]
    | ok v => simp [optionCodec, hc, Except.map]

/-- C6 (amended): decoding `Optional<T>` from an empty buffer yields the
absent value; from a non-empty buffer it yields exactly `T`'s own decode
result wrapped in `some`; and the round-trip
`decode(encode(some x)) = ok (some x)` holds whenever `T`'s own decode
inverts its encode at `x` and the encoding of `x` is non-empty (it fails
for values encoding to the empty buffer, see the counterexample). -/
theorem option_codec_spec {α : Type} (c : BodyCodec α) :
    (optionCodec c).from_data [] = .ok none
    ∧ (∀ data : List Nat, data ≠ [] →
        (optionCodec c).from_data data = (c.from_data data).map some)
    ∧ (∀ (x : α) (bs : List Nat),
        c.into_body x = .ok bs → bs ≠ [] → c.from_data bs = .ok x →
        (optionCodec c).into_body (some x) = .ok bs
          ∧ (optionCodec c).from_data bs = .ok (some x)) := by
  refine ⟨rfl, optionCodec_delegates c, ?_⟩
  intro x bs he hne hdec
  constructor
  · simp [optionCodec, he]
  · rw [optionCodec_delegates c bs hne, hdec]
    rfl

/-- C6 witness: the amended theorem for the passthrough `Bytes` codec at
the one-byte buffer `[104]`. -/
theorem option_codec_spec_witness :
    (optionCodec bytesCodec).from_data [104] = .ok (some [104]) :=
  ((option_codec_spec bytesCodec).2.2 [104] [104] rfl (by decide) rfl).2

/-- C7: whenever the settings header is present and its value parses as a
string-to-string map containing a `webhook_url` key, `Settings::new`
succeeds and the returned `webhook_url` equals the parsed value of that
key. -/
theorem settings_new_valid
    (parse : String → Except String (List (String × String)))
    (headers : List (String × String)) (value : String)
    (data : List (String × String)) (url : String)
    (hv : headerGet headers settingsHeaderName = some value)
    (hp : parse value = .ok data)
    (hu : mapGet data "webhook_url" = some url) :
    Settings.new parse headers = .ok { webhook_url := url } := by
  simp [Settings.new, hv, hp, hu]

/-- C7 witness: a concrete valid settings header. -/
theorem settings_new_valid_witness :
    Settings.new parseSettingsDemo [("x-edgee-component-settings", "cfg")]
      = .ok { webhook_url := "http://example.com/webhook" } :=
  settings_new_valid parseSettingsDemo [("x-edgee-component-settings", "cfg")]
    "cfg" [("webhook_url", "http://example.com/webhook")]
    "http://example.com/webhook" rfl rfl rfl

/-- Helper: a header map without the looked-up name yields no value. -/
theorem headerGet_eq_none (headers : List (String × String)) (name : String)
    (h : ∀ p ∈ headers, headerNameEq p.1 name = false) :
    headerGet headers name = none := by
  induction headers with
  | nil => rfl
  | cons p rest ih =>
    obtain ⟨k, v⟩ := p
    have hk : headerNameEq k name = false := h (k, v) (List.mem_cons_self _ _)
    simp [headerGet, hk]
    exact ih fun q hq => h q (List.mem_cons_of_mem _ hq)

/-- C8: for every header map containing no `x-edgee-component-settings`
header (under the case-insensitive name comparison of `http::HeaderMap`),
`Settings::new` fails with the missing-header error message. The embedded
function is total, so no input can make it panic. -/
theorem settings_new_missing_header
    (parse : String → Except String (List (String × String)))
    (headers : List (String × String))
    (h : ∀ p ∈ headers, headerNameEq p.1 settingsHeaderName = false) :
    Settings.new parse headers
      = .error "Missing 'x-edgee-component-settings' header" := by
  simp [Settings.new, headerGet_eq_none headers settingsHeaderName h]

/-- C8 witness: a header map with only an unrelated header. -/
theorem settings_new_missing_header_witness :
    Settings.new parseSettingsDemo [("other-header", "x")]
      = .error "Missing 'x-edgee-component-settings' header" :=
  settings_new_missing_header parseSettingsDemo [("other-header", "x")] (by decide)

/-- C9 (spec-modelled): under the strict variant, a settings header
carrying more than one value is rejected with a duplicate error carrying
the exact count of values found. -/
theorem settings_newStrict_duplicate
    (parse : String → Except String (List (String × String)))
    (headers : List (String × String))
    (h : 2 ≤ (headerGetAll headers settingsHeaderName).length) :
    Settings.newStrict parse headers
      = .error (.duplicate (headerGetAll headers settingsHeaderName).length) := by
  rcases hv : headerGetAll headers settingsHeaderName with _ | ⟨a, _ | ⟨b, rest⟩⟩
  · rw [hv] at h
    simp only [List.length_nil] at h
    omega
  · rw [hv] at h
    simp only [List.length_singleton] at h
    omega
  · simp [Settings.newStrict, hv]

/-- C9 witness: the settings header repeated with two different bodies is
rejected with count 2. -/
theorem settings_newStrict_duplicate_witness :
    Settings.newStrict parseSettingsDemo
        [("x-edgee-component-settings", "cfg"), ("x-edgee-component-settings", "cfg2")]
      = .error (.duplicate 2) :=
  settings_newStrict_duplicate parseSettingsDemo
    [("x-edgee-component-settings", "cfg"), ("x-edgee-component-settings", "cfg2")]
    (by decide)

/-- C10: whenever the settings header value parses as a string-to-string
map lacking the `webhook_url` key, `Settings::new` fails with
`"Missing webhook_url setting"` — the strict missing-field policy, not the
lenient empty-string policy. -/
theorem settings_new_missing_webhook_url
    (parse : String → Except String (List (String × String)))
    (headers : List (String × String)) (value : String)
    (data : List (String × String))
    (hv : headerGet headers settingsHeaderName = some value)
    (hp : parse value = .ok data)
    (hu : mapGet data "webhook_url" = none) :
    Settings.new parse headers = .error "Missing webhook_url setting" := by
  simp [Settings.new, hv, hp, hu]

/-- C10 witness: a settings map with only an unrelated key. -/
theorem settings_new_missing_webhook_url_witness :
    Settings.new parseSettingsDemo [("x-edgee-component-settings", "cfg2")]
      = .error "Missing webhook_url setting" :=
  settings_new_missing_webhook_url parseSettingsDemo
    [("x-edgee-component-settings", "cfg2")] "cfg2"
    [("not_webhook_url", "value")] rfl rfl rfl
